import Mathlib

/-!
Shallow embedding of the core of `ascii_username_generator.py`: the word
filter (`is_valid_word`), the username formatter (`finalize_username`), the
per-language word query (`get_words`), the single-draw generator
(`generate_ascii_username`), and the batch generator (`generate_usernames`).

Strings are modelled as `List Char`; Python's `ord c` is `Char.toNat`.
Python's `random.choice` and `random.randint` consume an explicit randomness
parameter. Exceptions are modelled with `Except`: `random.choice` on an empty
list raises `IndexError`; the WordNet query may raise at any point of its
iteration, which `get_words` catches.
-/

namespace UsernameGen

/-- A word (Python `str`) as its list of Unicode characters. -/
abbrev Word := List Char

/-- Source: `is_valid_word(word, min_len=3)` returns
`all(ord(c) < 128 for c in word) and len(word) >= min_len`.
`min_len` is a Python `int`, so it is modelled as `Int`. -/
def is_valid_word (word : Word) (min_len : Int) : Bool :=
  word.all (fun c => decide (c.toNat < 128)) && decide (min_len ≤ (word.length : Int))

/-- Characters of the decimal representation of `n`, as Python's `str(n)`
produces for a nonnegative integer: no sign, no leading zeros, `"0"` for 0. -/
def natDigits (n : Nat) : List Char :=
  if _h : n < 10 then [Nat.digitChar n]
  else natDigits (n / 10) ++ [Nat.digitChar (n % 10)]
decreasing_by exact Nat.div_lt_self (by omega) (by omega)

/-- Zero padding to `width`, as Python's format spec `0Nd` applied to the
digit string of a nonnegative integer. -/
def padZero (width : Nat) (ds : List Char) : List Char :=
  List.replicate (width - ds.length) '0' ++ ds

/-- Python's `random.randint(lo, hi)` (inclusive bounds), with the randomness
made explicit: the draw is determined by the supplied value `r`. -/
def randint (lo hi r : Nat) : Nat :=
  lo + r % (hi - lo + 1)

/-- Python's `str.capitalize()` restricted to the basic-latin case maps:
first character upper-cased, remainder lower-cased. -/
def pyCapitalize : Word → Word
  | [] => []
  | c :: cs => Char.toUpper c :: cs.map Char.toLower

/-- The case-transform half of `finalize_username`: the `if`/`elif` chain on
`self.case_var.get()` (lowercase, then uppercase, then capitalize, else the
word unchanged). Basic-latin case maps model Python's `str.lower`/`str.upper`,
which agree with them on ASCII strings. -/
def applyCase (case_style : String) (word : Word) : Word :=
  if case_style = "lowercase" then word.map Char.toLower
  else if case_style = "uppercase" then word.map Char.toUpper
  else if case_style = "capitalize" then pyCapitalize word
  else word

/-- The number-suffix half of `finalize_username`: the `if`/`elif` chain on
`self.number_var.get()`, appending `str(randint(0,9))`, `f"{randint(0,99):02d}"`
or `f"{randint(0,999):03d}"`, else nothing. `r` is the randomness consumed by
the `randint` call. -/
def applyNumber (number_style : String) (r : Nat) (word : Word) : Word :=
  if number_style = "1digit" then word ++ natDigits (randint 0 9 r)
  else if number_style = "2digit" then word ++ padZero 2 (natDigits (randint 0 99 r))
  else if number_style = "3digit" then word ++ padZero 3 (natDigits (randint 0 999 r))
  else word

/-- Source: `finalize_username(word)` applies the case transform selected by
`case_var`, then appends the numeric suffix selected by `number_var`. The two
Tkinter variables are modelled as explicit arguments, and `r` is the
randomness consumed by the suffix draw. -/
def finalize_username (case_style number_style : String) (r : Nat) (word : Word) : Word :=
  applyNumber number_style r (applyCase case_style word)

/-- Reading a digit string back as a number: the value its decimal digits
denote. Used to state what the numeric suffix represents. -/
def digitsToNat (ds : List Char) : Nat :=
  ds.foldl (fun a c => 10 * a + (c.toNat - 48)) 0

theorem natDigits_lt10 (n : Nat) (h : n < 10) : natDigits n = [Nat.digitChar n] := by
  rw [natDigits]
  simp [h]

theorem natDigits_ge10 (n : Nat) (h : ¬ n < 10) :
    natDigits n = natDigits (n / 10) ++ [Nat.digitChar (n % 10)] := by
  rw [natDigits]
  simp [h]

theorem digitChar_isDigit (d : Nat) (h : d < 10) : (Nat.digitChar d).isDigit = true := by
  interval_cases d <;> decide

theorem digitChar_toNat (d : Nat) (h : d < 10) : (Nat.digitChar d).toNat = 48 + d := by
  interval_cases d <;> decide

theorem natDigits_length_le_two (n : Nat) (h : n ≤ 99) : (natDigits n).length ≤ 2 := by
  by_cases h10 : n < 10
  · rw [natDigits_lt10 n h10]
    simp
  · rw [natDigits_ge10 n h10]
    rw [natDigits_lt10 (n / 10) (by omega)]
    simp

theorem natDigits_length_le_three (n : Nat) (h : n ≤ 999) : (natDigits n).length ≤ 3 := by
  by_cases h10 : n < 10
  · rw [natDigits_lt10 n h10]
    simp
  · rw [natDigits_ge10 n h10]
    have := natDigits_length_le_two (n / 10) (by omega)
    simp
    omega

theorem natDigits_length_pos (n : Nat) : 1 ≤ (natDigits n).length := by
  by_cases h10 : n < 10
  · rw [natDigits_lt10 n h10]
    simp
  · rw [natDigits_ge10 n h10]
    simp

theorem natDigits_all_isDigit (n : Nat) : (natDigits n).all Char.isDigit = true := by
  induction n using Nat.strong_induction_on with
  | _ n ih =>
    by_cases h10 : n < 10
    · rw [natDigits_lt10 n h10]
      simp [digitChar_isDigit n h10]
    · rw [natDigits_ge10 n h10]
      rw [List.all_append, Bool.and_eq_true]
      refine ⟨ih (n / 10) (Nat.div_lt_self (by omega) (by omega)), ?_⟩
      simp [digitChar_isDigit (n % 10) (Nat.mod_lt n (by omega))]

theorem natDigits_ascii (n : Nat) : ∀ c ∈ natDigits n, c.toNat < 128 := by
  induction n using Nat.strong_induction_on with
  | _ n ih =>
    by_cases h10 : n < 10
    · rw [natDigits_lt10 n h10]
      intro c hc
      rw [List.mem_singleton] at hc
      subst hc
      rw [digitChar_toNat n h10]
      omega
    · rw [natDigits_ge10 n h10]
      intro c hc
      rcases List.mem_append.mp hc with hl | hr
      · exact ih (n / 10) (Nat.div_lt_self (by omega) (by omega)) c hl
      · rw [List.mem_singleton] at hr
        subst hr
        rw [digitChar_toNat (n % 10) (Nat.mod_lt n (by omega))]
        omega

theorem foldl_digits_natDigits (n : Nat) : ∀ acc : Nat,
    (natDigits n).foldl (fun a c => 10 * a + (c.toNat - 48)) acc
      = acc * 10 ^ (natDigits n).length + n := by
  induction n using Nat.strong_induction_on with
  | _ n ih =>
    intro acc
    by_cases h10 : n < 10
    · rw [natDigits_lt10 n h10]
      simp [digitChar_toNat n h10]
      omega
    · rw [natDigits_ge10 n h10]
      rw [List.foldl_append]
      rw [ih (n / 10) (Nat.div_lt_self (by omega) (by omega)) acc]
      simp [digitChar_toNat (n % 10) (Nat.mod_lt n (by omega))]
      have hdm : 10 * (n / 10) + n % 10 = n := Nat.div_add_mod n 10
      rw [pow_succ]
      ring_nf
      omega

theorem digitsToNat_natDigits (n : Nat) : digitsToNat (natDigits n) = n := by
  rw [digitsToNat, foldl_digits_natDigits n 0]
  simp

theorem foldl_digits_replicate_zero (k : Nat) :
    (List.replicate k '0').foldl (fun a c => 10 * a + (c.toNat - 48)) 0 = 0 := by
  induction k with
  | zero => rfl
  | succ k ih =>
    rw [List.replicate_succ, List.foldl_cons]
    simpa using ih

theorem digitsToNat_padZero (width : Nat) (ds : List Char) :
    digitsToNat (padZero width ds) = digitsToNat ds := by
  rw [digitsToNat, digitsToNat, padZero, List.foldl_append, foldl_digits_replicate_zero]

theorem padZero_length (width : Nat) (ds : List Char) (h : ds.length ≤ width) :
    (padZero width ds).length = width := by
  simp [padZero]
  omega

theorem padZero_all (width : Nat) (ds : List Char) (p : Char → Bool) (hz : p '0' = true)
    (h : ds.all p = true) : (padZero width ds).all p = true := by
  rw [padZero, List.all_append, Bool.and_eq_true]
  refine ⟨?_, h⟩
  rw [List.all_eq_true]
  intro c hc
  rw [List.eq_of_mem_replicate hc]
  exact hz

theorem randint_le (hi r : Nat) : randint 0 hi r ≤ hi := by
  have := Nat.mod_lt r (show hi + 1 > 0 by omega)
  simp [randint]
  omega

theorem is_valid_word_iff (word : Word) (min_len : Int) :
    is_valid_word word min_len = true ↔
      ((∀ c ∈ word, c.toNat < 128) ∧ min_len ≤ (word.length : Int)) := by
  simp [is_valid_word, List.all_eq_true]

/-- Claim C2: `is_valid_word word min_len` is true iff every character's code
point is below 128 and the length is at least `min_len`; it is false when some
character's code point is at least 128, and false when the length is below
`min_len`. -/
theorem is_valid_word_spec (word : Word) (min_len : Int) :
    (is_valid_word word min_len = true ↔
      ((∀ c ∈ word, c.toNat < 128) ∧ min_len ≤ (word.length : Int)))
    ∧ ((∃ c ∈ word, 128 ≤ c.toNat) → is_valid_word word min_len = false)
    ∧ ((word.length : Int) < min_len → is_valid_word word min_len = false) := by
  have hmain := is_valid_word_iff word min_len
  refine ⟨hmain, ?_, ?_⟩
  · intro ⟨c, hc, hge⟩
    rw [Bool.eq_false_iff]
    intro htrue
    exact absurd ((hmain.mp htrue).1 c hc) (by omega)
  · intro hlen
    rw [Bool.eq_false_iff]
    intro htrue
    exact absurd (hmain.mp htrue).2 (by omega)

/-- Witness for C2 at the spec's own examples: "hello" is valid, "hi" is too
short, "café" contains a non-ASCII character. -/
theorem is_valid_word_spec_witness :
    is_valid_word "hello".data 3 = true
    ∧ is_valid_word "hi".data 3 = false
    ∧ is_valid_word "café".data 3 = false :=
  ⟨(is_valid_word_spec "hello".data 3).1.mpr (by decide),
   (is_valid_word_spec "hi".data 3).2.2 (by decide),
   (is_valid_word_spec "café".data 3).2.1 ⟨'é', by decide, by decide⟩⟩

/-- Claim C4: the numeric suffix is applied after the case transform and
appended with no separator; `none` appends nothing; `1digit` appends exactly
one decimal digit with no padding; `2digit` appends exactly two decimal digits
denoting a value in [0, 99] zero-padded to width 2; `3digit` appends exactly
three decimal digits denoting a value in [0, 999] zero-padded to width 3. -/
theorem finalize_username_suffix_spec (case_style : String) (r : Nat) (word : Word) :
    finalize_username case_style "none" r word = applyCase case_style word
    ∧ (finalize_username case_style "1digit" r word
        = applyCase case_style word ++ natDigits (randint 0 9 r)
      ∧ randint 0 9 r ≤ 9
      ∧ (natDigits (randint 0 9 r)).length = 1
      ∧ (natDigits (randint 0 9 r)).all Char.isDigit = true
      ∧ digitsToNat (natDigits (randint 0 9 r)) = randint 0 9 r)
    ∧ (finalize_username case_style "2digit" r word
        = applyCase case_style word ++ padZero 2 (natDigits (randint 0 99 r))
      ∧ randint 0 99 r ≤ 99
      ∧ (padZero 2 (natDigits (randint 0 99 r))).length = 2
      ∧ (padZero 2 (natDigits (randint 0 99 r))).all Char.isDigit = true
      ∧ digitsToNat (padZero 2 (natDigits (randint 0 99 r))) = randint 0 99 r)
    ∧ (finalize_username case_style "3digit" r word
        = applyCase case_style word ++ padZero 3 (natDigits (randint 0 999 r))
      ∧ randint 0 999 r ≤ 999
      ∧ (padZero 3 (natDigits (randint 0 999 r))).length = 3
      ∧ (padZero 3 (natDigits (randint 0 999 r))).all Char.isDigit = true
      ∧ digitsToNat (padZero 3 (natDigits (randint 0 999 r))) = randint 0 999 r) := by
  refine ⟨by simp [finalize_username, applyNumber], ⟨?_, ?_, ?_, ?_, ?_⟩, ⟨?_, ?_, ?_, ?_, ?_⟩,
    ⟨?_, ?_, ?_, ?_, ?_⟩⟩
  · simp [finalize_username, applyNumber]
  · exact randint_le 9 r
  · rw [natDigits_lt10 (randint 0 9 r) (by have := randint_le 9 r; omega)]
    simp
  · exact natDigits_all_isDigit (randint 0 9 r)
  · exact digitsToNat_natDigits (randint 0 9 r)
  · simp [finalize_username, applyNumber]
  · exact randint_le 99 r
  · exact padZero_length 2 _ (natDigits_length_le_two _ (randint_le 99 r))
  · exact padZero_all 2 _ _ (by decide) (natDigits_all_isDigit _)
  · rw [digitsToNat_padZero, digitsToNat_natDigits]
  · simp [finalize_username, applyNumber]
  · exact randint_le 999 r
  · exact padZero_length 3 _ (natDigits_length_le_three _ (randint_le 999 r))
  · exact padZero_all 3 _ _ (by decide) (natDigits_all_isDigit _)
  · rw [digitsToNat_padZero, digitsToNat_natDigits]

/-- Claim C5: the case transform is exactly one of: `capitalize` (first
character upper-cased, remainder lower-cased), `lowercase` (whole string
lower-cased), `uppercase` (whole string upper-cased, and with number style
`none` nothing else is appended), and any unrecognized value passes the word
through unmodified. -/
theorem finalize_username_case_spec (word : Word) (a : Char) (tail : Word) (r : Nat)
    (cs : String) (h1 : cs ≠ "capitalize") (h2 : cs ≠ "lowercase") (h3 : cs ≠ "uppercase") :
    finalize_username "capitalize" "none" r (a :: tail)
      = Char.toUpper a :: tail.map Char.toLower
    ∧ finalize_username "lowercase" "none" r word = word.map Char.toLower
    ∧ finalize_username "uppercase" "none" r word = word.map Char.toUpper
    ∧ finalize_username cs "none" r word = word := by
  refine ⟨?_, ?_, ?_, ?_⟩
  · simp [finalize_username, applyNumber, applyCase, pyCapitalize]
  · simp [finalize_username, applyNumber, applyCase]
  · simp [finalize_username, applyNumber, applyCase]
  · simp [finalize_username, applyNumber, applyCase, h1, h2, h3]

/-- Witness for C5 at a concrete unrecognized case style and concrete words. -/
theorem finalize_username_case_spec_witness :
    finalize_username "capitalize" "none" 0 "wOLf".data
      = Char.toUpper 'w' :: "OLf".data.map Char.toLower
    ∧ finalize_username "lowercase" "none" 0 "Cat".data = "Cat".data.map Char.toLower
    ∧ finalize_username "uppercase" "none" 0 "Cat".data = "Cat".data.map Char.toUpper
    ∧ finalize_username "mixed" "none" 0 "Cat".data = "Cat".data :=
  finalize_username_case_spec "Cat".data 'w' "OLf".data 0 "mixed"
    (by decide) (by decide) (by decide)

theorem char_ofNat_toNat (n : Nat) (h : n < 55296) : (Char.ofNat n).toNat = n := by
  rw [Char.ofNat, dif_pos (Or.inl h)]
  simp [Char.ofNatAux, Char.toNat, UInt32.ofNat', UInt32.toNat, BitVec.ofNatLt]

theorem toUpper_ascii (c : Char) (h : c.toNat < 128) : (Char.toUpper c).toNat < 128 := by
  simp only [Char.toUpper]
  split
  · rw [char_ofNat_toNat] <;> omega
  · exact h

theorem toLower_ascii (c : Char) (h : c.toNat < 128) : (Char.toLower c).toNat < 128 := by
  simp only [Char.toLower]
  split
  · rw [char_ofNat_toNat] <;> omega
  · exact h

theorem applyCase_ascii (cs : String) (word : Word) (h : ∀ c ∈ word, c.toNat < 128) :
    ∀ c ∈ applyCase cs word, c.toNat < 128 := by
  rw [applyCase]
  split_ifs
  · intro c hc
    rcases List.mem_map.mp hc with ⟨a, ha, rfl⟩
    exact toLower_ascii a (h a ha)
  · intro c hc
    rcases List.mem_map.mp hc with ⟨a, ha, rfl⟩
    exact toUpper_ascii a (h a ha)
  · cases word with
    | nil => intro c hc; cases hc
    | cons a tail =>
      intro c hc
      rw [pyCapitalize] at hc
      rcases List.mem_cons.mp hc with rfl | hc
      · exact toUpper_ascii a (h a (List.mem_cons_self a tail))
      · rcases List.mem_map.mp hc with ⟨b, hb, rfl⟩
        exact toLower_ascii b (h b (List.mem_cons_of_mem a hb))
  · exact h

theorem padZero_ascii (width n : Nat) : ∀ c ∈ padZero width (natDigits n), c.toNat < 128 := by
  intro c hc
  rcases List.mem_append.mp hc with hl | hr
  · rw [List.eq_of_mem_replicate hl]
    decide
  · exact natDigits_ascii n c hr

theorem applyNumber_ascii (ns : String) (r : Nat) (word : Word)
    (h : ∀ c ∈ word, c.toNat < 128) : ∀ c ∈ applyNumber ns r word, c.toNat < 128 := by
  rw [applyNumber]
  split_ifs
  · intro c hc
    rcases List.mem_append.mp hc with hl | hr
    · exact h c hl
    · exact natDigits_ascii _ c hr
  · intro c hc
    rcases List.mem_append.mp hc with hl | hr
    · exact h c hl
    · exact padZero_ascii 2 _ c hr
  · intro c hc
    rcases List.mem_append.mp hc with hl | hr
    · exact h c hl
    · exact padZero_ascii 3 _ c hr
  · exact h

/-- Claim C6: every username produced from a word that passes the filter is
ASCII-safe: all characters of the final formatted username have code points
below 128, for every case style, number style and random draw. -/
theorem finalize_username_ascii (cs ns : String) (r : Nat) (word : Word)
    (h : is_valid_word word 3 = true) :
    (finalize_username cs ns r word).all (fun c => decide (c.toNat < 128)) = true := by
  rw [List.all_eq_true]
  intro c hc
  rw [decide_eq_true_eq]
  have hword : ∀ c ∈ word, c.toNat < 128 := ((is_valid_word_iff word 3).mp h).1
  exact applyNumber_ascii ns r (applyCase cs word) (applyCase_ascii cs word hword) c hc

/-- Witness for C6: the filtered word "niño" is not valid, but "cat" is, and
its formatted form is entirely ASCII. -/
theorem finalize_username_ascii_witness :
    (finalize_username "uppercase" "2digit" 7 "cat".data).all
      (fun c => decide (c.toNat < 128)) = true :=
  finalize_username_ascii "uppercase" "2digit" 7 "cat".data (by decide)

/-- An explicit randomness source: a fixed stream of draws and the position of
the next unconsumed one. Consuming a draw only advances the position. -/
structure RandState where
  stream : Nat → Nat
  pos : Nat

/-- Reading the next random value: returns the current draw and the advanced
state. -/
def nextRand (σ : RandState) : Nat × RandState :=
  (σ.stream σ.pos, ⟨σ.stream, σ.pos + 1⟩)

/-- `finalize_username` with its consumption of the random source made
explicit: the suffix styles read exactly one draw, the rest of the state is
untouched. -/
def finalize_usernameSt (case_style number_style : String) (word : Word)
    (σ : RandState) : Word × RandState :=
  if number_style = "1digit" then
    let p := nextRand σ
    (applyCase case_style word ++ natDigits (randint 0 9 p.1), p.2)
  else if number_style = "2digit" then
    let p := nextRand σ
    (applyCase case_style word ++ padZero 2 (natDigits (randint 0 99 p.1)), p.2)
  else if number_style = "3digit" then
    let p := nextRand σ
    (applyCase case_style word ++ padZero 3 (natDigits (randint 0 999 p.1)), p.2)
  else (applyCase case_style word, σ)

/-- Claim C9: the word filter and the formatter are pure and deterministic:
two invocations with identical inputs (and the same pending random draw)
produce identical outputs, the formatter's result agrees with the pure
`finalize_username` applied to that draw, and the only state effect is
advancing the randomness position by at most one — the stream itself is never
written. -/
theorem filter_formatter_pure (cs ns : String) (word : Word) (min_len : Int)
    (σ1 σ2 : RandState) (h : σ1.stream σ1.pos = σ2.stream σ2.pos) :
    is_valid_word word min_len = is_valid_word word min_len
    ∧ (finalize_usernameSt cs ns word σ1).1 = (finalize_usernameSt cs ns word σ2).1
    ∧ (finalize_usernameSt cs ns word σ1).1
        = finalize_username cs ns (σ1.stream σ1.pos) word
    ∧ (finalize_usernameSt cs ns word σ1).2.stream = σ1.stream
    ∧ ((finalize_usernameSt cs ns word σ1).2.pos = σ1.pos
        ∨ (finalize_usernameSt cs ns word σ1).2.pos = σ1.pos + 1) := by
  refine ⟨rfl, ?_, ?_, ?_, ?_⟩
  · rw [finalize_usernameSt, finalize_usernameSt]
    split_ifs <;> simp [nextRand, h]
  · rw [finalize_usernameSt, finalize_username, applyNumber]
    split_ifs <;> simp [nextRand]
  · rw [finalize_usernameSt]
    split_ifs <;> simp [nextRand]
  · rw [finalize_usernameSt]
    split_ifs <;> simp [nextRand]

/-- Witness for C9 at two concrete states agreeing on the pending draw. -/
theorem filter_formatter_pure_witness :
    is_valid_word "cat".data 3 = is_valid_word "cat".data 3
    ∧ (finalize_usernameSt "lowercase" "2digit" "cat".data ⟨fun _ => 4, 0⟩).1
        = (finalize_usernameSt "lowercase" "2digit" "cat".data ⟨fun n => n + 4, 0⟩).1
    ∧ (finalize_usernameSt "lowercase" "2digit" "cat".data ⟨fun _ => 4, 0⟩).1
        = finalize_username "lowercase" "2digit"
            ((⟨fun _ => 4, 0⟩ : RandState).stream (⟨fun _ => 4, 0⟩ : RandState).pos)
            "cat".data
    ∧ (finalize_usernameSt "lowercase" "2digit" "cat".data ⟨fun _ => 4, 0⟩).2.stream
        = (⟨fun _ => 4, 0⟩ : RandState).stream
    ∧ ((finalize_usernameSt "lowercase" "2digit" "cat".data ⟨fun _ => 4, 0⟩).2.pos
          = (⟨fun _ => 4, 0⟩ : RandState).pos
        ∨ (finalize_usernameSt "lowercase" "2digit" "cat".data ⟨fun _ => 4, 0⟩).2.pos
          = (⟨fun _ => 4, 0⟩ : RandState).pos + 1) :=
  filter_formatter_pure "lowercase" "2digit" "cat".data 3
    ⟨fun _ => 4, 0⟩ ⟨fun n => n + 4, 0⟩ rfl

/-- One step of the WordNet iteration in `get_words`: fetching one lemma name
either yields the name or raises an exception at that point. -/
abbrev Fetch := Except Unit Word

/-- The external lexical source: for each language code, the sequence of
lemma-name fetches produced by iterating all synsets and their lemmas. -/
abbrev LexSource := String → List Fetch

/-- Python's `str.isalnum` on the basic-latin range: nonempty and every
character a letter or digit (lemma names with underscores, hyphens or spaces
fail it). -/
def pyIsAlnum (w : Word) : Bool :=
  !w.isEmpty && w.all (fun c => c.isAlpha || c.isDigit)

/-- The `try` body of `get_words`: walk the fetches, keep the alphanumeric
names, and on a raised exception stop — the names accumulated so far are
retained because the handler only logs. -/
def collectWords : List Fetch → List Word
  | [] => []
  | Except.error _ :: _ => []
  | Except.ok w :: rest => (if pyIsAlnum w then [w] else []) ++ collectWords rest

/-- Source: `get_words(lang_code)` returns the alphanumeric lemma names
fetched before any exception; the exception itself is caught and logged. -/
def get_words (src : LexSource) (lang_code : String) : List Word :=
  collectWords (src lang_code)

theorem mem_collectWords (l : List Fetch) (w : Word) (hw : w ∈ collectWords l) :
    pyIsAlnum w = true := by
  induction l with
  | nil => cases hw
  | cons f rest ih =>
    cases f with
    | error e => cases hw
    | ok v =>
      rw [collectWords] at hw
      by_cases hv : pyIsAlnum v = true
      · rw [if_pos hv] at hw
        rcases List.mem_append.mp hw with hl | hr
        · rw [List.mem_singleton] at hl
          subst hl
          exact hv
        · exact ih hr
      · rw [if_neg hv] at hw
        rw [List.nil_append] at hw
        exact ih hw

/-- Claim C10: every candidate returned by `get_words` satisfies `isalnum`,
so in particular it contains no underscore, hyphen or space. -/
theorem get_words_alnum (src : LexSource) (lang_code : String) (w : Word)
    (hw : w ∈ get_words src lang_code) :
    pyIsAlnum w = true
    ∧ w.all (fun c => !(c == '_' || c == '-' || c == ' ')) = true := by
  have halnum : pyIsAlnum w = true := mem_collectWords (src lang_code) w hw
  refine ⟨halnum, ?_⟩
  rw [List.all_eq_true]
  intro c hc
  have htmp := halnum
  rw [pyIsAlnum, Bool.and_eq_true] at htmp
  have hc2 := (List.all_eq_true.mp htmp.2) c hc
  have hne : c ≠ '_' ∧ c ≠ '-' ∧ c ≠ ' ' := by
    refine ⟨?_, ?_, ?_⟩ <;> rintro rfl <;> exact absurd hc2 (by decide)
  simp [hne.1, hne.2.1, hne.2.2]

/-- Witness for C10 at a concrete source: "cat" is in the candidate list of a
source that also offers "big_cat", which `isalnum` rejects. -/
theorem get_words_alnum_witness :
    pyIsAlnum "cat".data = true
    ∧ "cat".data.all (fun c => !(c == '_' || c == '-' || c == ' ')) = true :=
  get_words_alnum
    (fun _ => [Except.ok "big_cat".data, Except.ok "cat".data]) "eng" "cat".data
    (by decide)

/-- Failures raised by the modelled Python runtime. -/
inductive PyErr where
  | indexError
deriving DecidableEq

/-- Python's `random.choice(xs)`: raises `IndexError` on an empty sequence,
otherwise picks the element indexed by the randomness `r`. -/
def pyChoice {α : Type} (r : Nat) (xs : List α) : Except PyErr α :=
  if h : xs.length = 0 then Except.error PyErr.indexError
  else Except.ok (xs.get ⟨r % xs.length, Nat.mod_lt r (Nat.pos_of_ne_zero h)⟩)

/-- Source: `self.language_names`, the static code → display-name table. -/
def language_names : List (String × String) :=
  [("eng", "English"),
   ("spa", "Spanish"),
   ("fra", "French"),
   ("ita", "Italian"),
   ("por", "Portuguese"),
   ("nld", "Dutch"),
   ("pol", "Polish"),
   ("swe", "Swedish"),
   ("fin", "Finnish"),
   ("nno", "Norwegian Nynorsk"),
   ("nob", "Norwegian BokmÃ¥l"),
   ("ron", "Romanian"),
   ("slk", "Slovak"),
   ("slv", "Slovenian"),
   ("zsm", "Malay"),
   ("eus", "Basque"),
   ("cat", "Catalan"),
   ("dan", "Danish"),
   ("lit", "Lithuanian")]

/-- Source: `self.language_codes = list(self.language_names.keys())`. -/
def language_codes : List String :=
  language_names.map Prod.fst

/-- Source: `self.language_names.get(lang_code, lang_code)` in the batch loop. -/
def languageName (lang_code : String) : String :=
  match language_names.find? (fun p => p.1 == lang_code) with
  | some p => p.2
  | none => lang_code

/-- Claim C8: the code → display-name table has exactly 19 entries with
pairwise-distinct keys, and every code the batch generator samples from is a
key of the table. -/
theorem language_names_spec :
    language_names.length = 19
    ∧ (language_names.map Prod.fst).Nodup
    ∧ language_codes.all (fun c => (language_names.map Prod.fst).contains c) = true := by
  refine ⟨rfl, by decide, by decide⟩

/-- Python's string `<=` on code points: lexicographic comparison of the
character sequences. `usernames.sort(key=lambda x: x[0])` orders pairs by
this relation on their first components. -/
def wordLe : Word → Word → Bool
  | [], _ => true
  | _ :: _, [] => false
  | a :: as, b :: bs =>
    if a.toNat < b.toNat then true
    else if b.toNat < a.toNat then false
    else wordLe as bs

theorem wordLe_total : ∀ x y : Word, wordLe x y = true ∨ wordLe y x = true
  | [], _ => Or.inl (by simp only [wordLe])
  | _ :: _, [] => Or.inr (by simp only [wordLe])
  | a :: as, b :: bs => by
    simp only [wordLe]
    split_ifs with h1 h2 <;>
      first
        | exact Or.inl rfl
        | exact Or.inr rfl
        | omega
        | exact wordLe_total as bs

theorem wordLe_trans : ∀ x y z : Word, wordLe x y = true → wordLe y z = true →
    wordLe x z = true
  | [], _, _, _, _ => by simp only [wordLe]
  | _ :: _, [], _, hxy, _ => by
    simp only [wordLe] at hxy
    exact absurd hxy (by decide)
  | _ :: _, _ :: _, [], _, hyz => by
    simp only [wordLe] at hyz
    exact absurd hyz (by decide)
  | a :: as, b :: bs, c :: cs, hxy, hyz => by
    simp only [wordLe] at hxy hyz ⊢
    split_ifs at hxy hyz ⊢ <;>
      first
        | rfl
        | omega
        | exact absurd hxy (by decide)
        | exact absurd hyz (by decide)
        | exact wordLe_trans as bs cs hxy hyz

/-- The sort key of the batch loop: compare paired results by the formatted
username string. -/
def byUsername (x y : Word × String) : Bool := wordLe x.1 y.1

/-- `byUsername` as a relation, the order `usernames.sort` establishes. -/
def usernameOrder (x y : Word × String) : Prop := byUsername x y = true

instance : DecidableRel usernameOrder :=
  fun x y => inferInstanceAs (Decidable (byUsername x y = true))

instance : IsTotal (Word × String) usernameOrder :=
  ⟨fun x y => wordLe_total x.1 y.1⟩

instance : IsTrans (Word × String) usernameOrder :=
  ⟨fun x y z => wordLe_trans x.1 y.1 z.1⟩

/-- Source: `generate_ascii_username(lang_code)`: fetch the language's words,
keep those passing `is_valid_word` (with its default `min_len = 3`), pick one
uniformly, and format it. `random.choice` on an empty valid-word list raises
`IndexError`. -/
def generate_ascii_username (src : LexSource) (case_style number_style : String)
    (rWord rNum : Nat) (lang_code : String) : Except PyErr Word :=
  match pyChoice rWord ((get_words src lang_code).filter (fun w => is_valid_word w 3)) with
  | Except.error e => Except.error e
  | Except.ok w => Except.ok (finalize_username case_style number_style rNum w)

/-- One iteration of the batch loop: draw a language code uniformly, generate
a username for it, and pair it with the language's display name (defaulting to
the code itself, as `dict.get(lang_code, lang_code)` does). -/
def drawOne (src : LexSource) (case_style number_style : String)
    (rLang rWord rNum : Nat) : Except PyErr (Word × String) :=
  match pyChoice rLang language_codes with
  | Except.error e => Except.error e
  | Except.ok lang_code =>
    match generate_ascii_username src case_style number_style rWord rNum lang_code with
    | Except.error e => Except.error e
    | Except.ok u => Except.ok (u, languageName lang_code)

/-- The `for i in range(total)` loop of `generate_usernames`: run the draws in
order, stopping at the first uncaught exception. -/
def runDraws (src : LexSource) (case_style number_style : String)
    (rLang rWord rNum : Nat → Nat) : List Nat → Except PyErr (List (Word × String))
  | [] => Except.ok []
  | i :: rest =>
    match drawOne src case_style number_style (rLang i) (rWord i) (rNum i) with
    | Except.error e => Except.error e
    | Except.ok p =>
      match runDraws src case_style number_style rLang rWord rNum rest with
      | Except.error e => Except.error e
      | Except.ok ps => Except.ok (p :: ps)

/-- Source: `generate_usernames`: 40 draws, then
`usernames.sort(key=lambda x: x[0])`. Python's stable sort is modelled by the
stable `List.insertionSort`. The three streams supply the randomness of the
language choice, the word choice and the numeric suffix of each iteration. -/
def generate_usernames (src : LexSource) (case_style number_style : String)
    (rLang rWord rNum : Nat → Nat) : Except PyErr (List (Word × String)) :=
  match runDraws src case_style number_style rLang rWord rNum (List.range 40) with
  | Except.error e => Except.error e
  | Except.ok usernames => Except.ok (usernames.insertionSort usernameOrder)

theorem runDraws_length (src : LexSource) (cs ns : String) (rL rW rN : Nat → Nat) :
    ∀ (l : List Nat) (ps : List (Word × String)),
      runDraws src cs ns rL rW rN l = Except.ok ps → ps.length = l.length := by
  intro l
  induction l with
  | nil =>
    intro ps hps
    rw [runDraws] at hps
    cases hps
    rfl
  | cons i rest ih =>
    intro ps hps
    rw [runDraws] at hps
    cases hdraw : drawOne src cs ns (rL i) (rW i) (rN i) with
    | error e => rw [hdraw] at hps; cases hps
    | ok p =>
      rw [hdraw] at hps
      cases hrun : runDraws src cs ns rL rW rN rest with
      | error e => rw [hrun] at hps; cases hps
      | ok qs =>
        rw [hrun] at hps
        cases hps
        simp [ih qs hrun]

/-- Claim C3 (amended): whenever the batch returns at all, it returns exactly
40 (username, display name) entries, non-decreasing under the code-point
lexicographic order of the formatted usernames. -/
theorem generate_usernames_sorted (src : LexSource) (cs ns : String)
    (rLang rWord rNum : Nat → Nat) (us : List (Word × String))
    (h : generate_usernames src cs ns rLang rWord rNum = Except.ok us) :
    us.length = 40 ∧ us.Pairwise usernameOrder := by
  rw [generate_usernames] at h
  cases hrun : runDraws src cs ns rLang rWord rNum (List.range 40) with
  | error e => rw [hrun] at h; cases h
  | ok ps =>
    rw [hrun] at h
    cases h
    constructor
    · rw [List.length_insertionSort, runDraws_length src cs ns rLang rWord rNum _ ps hrun]
      rw [List.length_range]
    · exact List.sorted_insertionSort usernameOrder ps

/-- Claim C1: when every configured language's lexical source is empty, the
reference code neither retries nor raises a dedicated error: the whole batch
run dies on the first draw with the unrelated internal `IndexError` raised by
`random.choice` on the empty valid-word list — for every case style, number
style and random stream. -/
theorem generate_usernames_all_empty_crash (cs ns : String) (rLang rWord rNum : Nat → Nat) :
    generate_usernames (fun _ => []) cs ns rLang rWord rNum
      = Except.error PyErr.indexError := rfl

/-- The lexical source of the C3 counterexample: "eng" offers no words at all
while every other language offers "cat" — so not every language is empty. -/
def srcPartial : LexSource := fun lang_code =>
  if lang_code = "eng" then [] else [Except.ok "cat".data]

/-- Counterexample to claim C3 as stated: not all languages are empty (the
"spa" valid-word set is nonempty), yet the batch fails to return 40 entries —
the run aborts with `IndexError` as soon as a draw picks "eng". -/
theorem generate_usernames_not_total :
    (get_words srcPartial "spa").filter (fun w => is_valid_word w 3) ≠ []
    ∧ generate_usernames srcPartial "lowercase" "none"
        (fun _ => 0) (fun _ => 0) (fun _ => 0) = Except.error PyErr.indexError :=
  ⟨by decide, rfl⟩

/-- The stubbed source of §8 of the specification: every language offers
"cat", "ox" and "wolf". -/
def srcStub : LexSource := fun _ =>
  [Except.ok "cat".data, Except.ok "ox".data, Except.ok "wolf".data]

/-- Witness for C3 at the stubbed source: the batch succeeds, and the returned
list has exactly 40 entries in non-decreasing username order. -/
theorem generate_usernames_sorted_witness :
    ((generate_usernames srcStub "lowercase" "none" (fun i => i) (fun i => i)
        (fun _ => 0)).toOption.getD []).length = 40
    ∧ ((generate_usernames srcStub "lowercase" "none" (fun i => i) (fun i => i)
        (fun _ => 0)).toOption.getD []).Pairwise usernameOrder :=
  generate_usernames_sorted srcStub "lowercase" "none" (fun i => i) (fun i => i)
    (fun _ => 0) _ rfl

theorem collectWords_recovers (pre : List Word) (rest : List Fetch) :
    collectWords (pre.map Except.ok ++ Except.error () :: rest) = pre.filter pyIsAlnum := by
  induction pre with
  | nil => rfl
  | cons w ws ih =>
    simp only [List.map_cons, List.cons_append, collectWords, List.filter_cons]
    split_ifs <;> simp [ih]

theorem pyChoice_ok {α : Type} (r : Nat) (xs : List α) (h : xs ≠ []) :
    ∃ x, pyChoice r xs = Except.ok x ∧ x ∈ xs := by
  rw [pyChoice]
  have hlen : ¬ xs.length = 0 := by simpa using h
  rw [dif_neg hlen]
  exact ⟨_, rfl, List.get_mem xs _ _⟩

theorem drawOne_ok (src : LexSource) (cs ns : String) (rL rW rN : Nat)
    (hvalid : ∀ l ∈ language_codes,
      (get_words src l).filter (fun w => is_valid_word w 3) ≠ []) :
    ∃ p, drawOne src cs ns rL rW rN = Except.ok p := by
  obtain ⟨lang_code, hchoice, hmem⟩ := pyChoice_ok rL language_codes (by decide)
  obtain ⟨w, hw, _⟩ := pyChoice_ok rW _ (hvalid lang_code hmem)
  refine ⟨(finalize_username cs ns rN w, languageName lang_code), ?_⟩
  simp only [drawOne, generate_ascii_username, hchoice, hw]

theorem runDraws_ok (src : LexSource) (cs ns : String) (rL rW rN : Nat → Nat)
    (hvalid : ∀ l ∈ language_codes,
      (get_words src l).filter (fun w => is_valid_word w 3) ≠ []) :
    ∀ l : List Nat, ∃ ps, runDraws src cs ns rL rW rN l = Except.ok ps := by
  intro l
  induction l with
  | nil => exact ⟨[], rfl⟩
  | cons i rest ih =>
    obtain ⟨p, hp⟩ := drawOne_ok src cs ns (rL i) (rW i) (rN i) hvalid
    obtain ⟨ps, hps⟩ := ih
    rw [runDraws, hp, hps]
    exact ⟨_, rfl⟩

/-- Claim C7 (amended): a lookup failure while querying one language is
recovered locally — `get_words` catches the exception and returns the
alphanumeric words accumulated before the failure rather than propagating it —
and it never affects other languages: as long as every language that can be
drawn still has a nonempty valid-word set (which a failing language may not,
if too few words were fetched before the failure), the whole batch completes
normally. -/
theorem get_words_recovers (src : LexSource) (lang_code : String) (pre : List Word)
    (rest : List Fetch) (cs ns : String) (rLang rWord rNum : Nat → Nat)
    (hsrc : src lang_code = pre.map Except.ok ++ Except.error () :: rest)
    (hvalid : ∀ l ∈ language_codes,
      (get_words src l).filter (fun w => is_valid_word w 3) ≠ []) :
    get_words src lang_code = pre.filter pyIsAlnum
    ∧ ∃ us, generate_usernames src cs ns rLang rWord rNum = Except.ok us := by
  refine ⟨?_, ?_⟩
  · rw [get_words, hsrc, collectWords_recovers]
  · obtain ⟨ps, hps⟩ := runDraws_ok src cs ns rLang rWord rNum hvalid (List.range 40)
    rw [generate_usernames, hps]
    exact ⟨_, rfl⟩

/-- The lexical source of the C7 counterexample: the query for "eng" raises
immediately; every other language yields "cat". -/
def srcLookupFail : LexSource := fun lang_code =>
  if lang_code = "eng" then [Except.error ()] else [Except.ok "cat".data]

/-- Counterexample to claim C7 as stated: the lookup failure for "eng" is
recovered locally by `get_words` (which returns the empty list instead of
propagating), yet the batch run is terminated: the first draw picks "eng" and
dies with `IndexError` on its empty valid-word set. -/
theorem lookup_failure_terminates_batch :
    get_words srcLookupFail "eng" = []
    ∧ generate_usernames srcLookupFail "lowercase" "none"
        (fun _ => 0) (fun _ => 0) (fun _ => 0) = Except.error PyErr.indexError :=
  ⟨rfl, rfl⟩

/-- The lexical source of the C7 witness: the query for "eng" yields "cat" and
then raises; every other language yields "cat" cleanly. -/
def srcRecovered : LexSource := fun lang_code =>
  if lang_code = "eng" then [Except.ok "cat".data, Except.error ()]
  else [Except.ok "cat".data]

/-- Witness for C7 (amended) at a concrete source: the failing "eng" query
still contributes the word fetched before the failure, and the batch run
completes. -/
theorem get_words_recovers_witness :
    get_words srcRecovered "eng" = ["cat".data].filter pyIsAlnum
    ∧ ∃ us, generate_usernames srcRecovered "lowercase" "none"
        (fun _ => 0) (fun _ => 0) (fun _ => 0) = Except.ok us :=
  get_words_recovers srcRecovered "eng" ["cat".data] [] "lowercase" "none"
    (fun _ => 0) (fun _ => 0) (fun _ => 0) rfl (by decide)

end UsernameGen
